import Mathlib

/-!
# Verification of the relative-artistry core

A shallow embedding of the core of the relative-artistry scripts
(`spotify_wrapper.py`, `search_selectors.py`, `artist-relatives.py`) in Lean 4,
together with theorems settling the stated properties of the paginated
collector, the search selectors, the artist resolver, the related-artist
walker, and the playlist assembler.

Artist ids, artist names, track ids, playlist ids and URLs are all opaque
strings in the source; they are modelled as `String`.
-/

namespace RelativeArtistry

/-! ## Ordered sets

`artist-relatives.py` uses `ordered_set.OrderedSet`: an insertion-ordered
duplicate-free collection.  It is modelled as a duplicate-free `List String`;
`osInsert`/`osUpdate` model `OrderedSet.add`/`OrderedSet.update` (append each
element not already present, in order), `osDiff` models set difference `-=`.
-/

/-- `OrderedSet` insertion: append `y` unless it is already present. -/
def osInsert (xs : List String) (y : String) : List String :=
  if y ∈ xs then xs else xs ++ [y]

/-- `OrderedSet.update`: insert every element of `ys`, in order. -/
def osUpdate (xs ys : List String) : List String :=
  ys.foldl osInsert xs

/-- `OrderedSet` difference: keep the elements of `xs` not in `ys`. -/
def osDiff (xs ys : List String) : List String :=
  xs.filter (fun x => decide (x ∉ ys))

/-! ## Constants of `spotify_wrapper.py` -/

def MAX_PLAYLIST_SIZE : Nat := 11000

def MAX_TRACKS_ADDED : Nat := 100

def RESULT_LIMIT : Nat := 50

/-! ## The paginated collector (`SpotifyWrapper._collect`)

```python
values = []
offset = 0
while True:
    result = op(request_key, limit=RESULT_LIMIT, offset=offset)
    values += value_path.search(result)
    next = next_path.search(result)
    if halt(values) or not next:
        break
    offset += len(values)
return values
```

The page object returned by `op` is opaque; the collector only ever applies
`value_path.search` (the extracted items) and `next_path.search` (whose
truthiness decides continuation) to it.  So a paged operation is modelled as a
function from `(limit, offset)` to the pair of those two projections; the
`request_key` is already bound into `op` by the callers.  The Python
`while True` loop need not terminate (if a page is empty and reports a
continuation, `offset` does not advance), so the embedding takes a fuel
argument and returns `none` when the fuel runs out before the loop breaks.
-/

/-- The loop of `SpotifyWrapper._collect`: state is `(values, offset)`. -/
def collectAux (op : Nat → Nat → List α × Bool) (halt : List α → Bool)
    (values : List α) (offset : Nat) : Nat → Option (List α)
  | 0 => none
  | fuel + 1 =>
    let result := op RESULT_LIMIT offset
    let values := values ++ result.1
    if halt values || !result.2 then some values
    else collectAux op halt values (offset + values.length) fuel

/-- `SpotifyWrapper._collect op request_key value_path next_path halt`,
with the page projections fused into `op`. -/
def collect (op : Nat → Nat → List α × Bool) (halt : List α → Bool)
    (fuel : Nat) : Option (List α) :=
  collectAux op halt [] 0 fuel

/-- The default `halt=lambda values: False` argument of `_collect`. -/
def defaultHalt : List α → Bool := fun _ => false

/-- A well-behaved paged endpoint over a result set of `total` items
(numbered `0, …, total-1`): a request for `limit` items at `offset` returns
the items `offset, …, offset+limit-1` (clipped to the result set), and a
continuation flag that is set exactly when items remain past this page —
the pagination contract of the backing service. -/
def pagedOp (total : Nat) (limit offset : Nat) : List Nat × Bool :=
  (((List.range total).drop offset).take limit, decide (offset + limit < total))

/-- C1: for a 150-item result set served in pages of `RESULT_LIMIT = 50`,
`_collect` with the default always-false halt returns only the first 100
items: after the second page `offset += len(values)` advances the offset by
the whole accumulated count (50 + 100), so the third fetch happens at offset
150 instead of 100 and items 100–149 are omitted from the result. -/
theorem C1_collect_omits_third_page :
    collect (pagedOp 150) defaultHalt 4 = some (List.range 100) := by
  decide

/-! ## Search selectors (`search_selectors.py`)

A candidate artist object, as consumed by the selectors: the fields the
selectors and the ambiguity error read (`uri`, `popularity`,
`followers.total`).  The jmespath expressions `sort_by(@, &popularity)[-1]`
and `sort_by(@, &followers.total)[-1]` perform a stable ascending sort and
take the last element; on an empty list the `[-1]` index yields `null`
(modelled as `none`), which `_select` wraps in a one-element list.  `select`
then raises `ValueError` messages for the no-match and the ambiguous case,
modelled as the two constructors of `SelectorError`.
-/

structure Artist where
  uri : String
  name : String
  popularity : Nat
  followers : Nat
deriving DecidableEq, Repr

inductive SelectorError where
  /-- "I couldn't find any artists who matched the search criteria." -/
  | noMatch : SelectorError
  /-- "I found multiple artists who matched the search criteria, and the
  selector failed to pick one. Artist URIs: ..." with the joined candidates. -/
  | ambiguous (candidates : List (Option Artist)) : SelectorError
deriving DecidableEq, Repr

/-- `jmespath` `sort_by(@, &popularity)`: stable ascending sort. -/
def sortByPopularity (artists : List Artist) : List Artist :=
  artists.mergeSort (fun a b => decide (a.popularity ≤ b.popularity))

/-- `jmespath` `sort_by(@, &followers.total)`: stable ascending sort. -/
def sortByFollowers (artists : List Artist) : List Artist :=
  artists.mergeSort (fun a b => decide (a.followers ≤ b.followers))

/-- `MostPopular._select`: `[MostPopular.PATH.search(artists)]` — the last
element of the popularity-sorted list (or `null` if there is none), wrapped
in a one-element list. -/
def MostPopular_select (artists : List Artist) : List (Option Artist) :=
  [(sortByPopularity artists).getLast?]

/-- `MostFollowed._select`: same with the followers-sorted list. -/
def MostFollowed_select (artists : List Artist) : List (Option Artist) :=
  [(sortByFollowers artists).getLast?]

/-- `Halt._select`: returns the candidate list unchanged. -/
def Halt_select (artists : List Artist) : List (Option Artist) :=
  artists.map some

/-- `SearchSelector.select`: raise if `_select` produced nothing, raise the
ambiguity error if it produced more than one value, otherwise return the
single value (which, for the sorting selectors on empty input, is `null`). -/
def SearchSelector_select (sel : List Artist → List (Option Artist))
    (artists : List Artist) : Except SelectorError (Option Artist) :=
  match sel artists with
  | [] => .error .noMatch
  | [a] => .ok a
  | l => .error (.ambiguous l)

/-- C4: on an empty candidate list, `select` under `MostPopular` and
`MostFollowed` does not raise: jmespath evaluates `sort_by(@, ...)[-1]` on an
empty list to `null`, `_select` returns the one-element list `[null]`, and
`select` returns its sole element `null` — a value, not an error.  Only the
`Halt` variant reaches the zero-candidate error. -/
theorem C4_sorting_selectors_return_none_on_empty :
    SearchSelector_select MostPopular_select [] = .ok none ∧
    SearchSelector_select MostFollowed_select [] = .ok none ∧
    SearchSelector_select Halt_select [] = .error .noMatch := by
  refine ⟨?_, ?_, rfl⟩ <;>
    simp [SearchSelector_select, MostPopular_select, MostFollowed_select,
      sortByPopularity, sortByFollowers]

/-! ## The artist resolver (`SpotifyWrapper.get_artist`,
`ArtistRelativesApp._load_artist`)

The artist-lookup endpoint (`spotify_client.artist`) returns a response
object of which only the `"id"` and `"name"` fields are read; it is modelled
as a function from the queried URI/id to that pair of fields.

```python
def get_artist(self, artist_uri):
    artist_response = self._spotify_client.artist(artist_uri)
    return artist_response["id"], artist_response["name"]
```

```python
def _load_artist(self, artist, ask=False):
    if self.spotify_client.is_artist_uri(artist):
        artist_name, artist_id = self.spotify_client.get_artist(artist)
    else:
        artist_name = artist
        artist_id = self._query_artist_id_by_name(artist, ask)
        if not artist_id:
            raise ValueError(...)
    return artist_id, artist_name
```

`_query_artist_id_by_name` performs the paged name search and either sorts
by popularity or interactively prompts the user; it is an out-of-core
collaborator here, modelled as an oracle `queryByName : String → Bool →
Option String` (`none` when the search found no exact match, in which case
`_load_artist` raises `ValueError`, modelled as `none`).
-/

/-- The `"id"` and `"name"` fields of an artist-lookup response. -/
structure ArtistRecord where
  id : String
  name : String
deriving DecidableEq, Repr

/-- `SpotifyWrapper.get_artist`: one lookup call, returning the pair
`(response["id"], response["name"])`. -/
def get_artist (lookup : String → ArtistRecord) (artist_uri : String) :
    String × String :=
  let artist_response := lookup artist_uri
  (artist_response.id, artist_response.name)

/-- `SpotifyWrapper.is_artist_uri`: `artist.startswith("spotify:artist:")`.
The prefix test is expressed on the strings' character lists (the meaning of
`str.startswith`), since Lean's byte-level `String.startsWith` is opaque to
kernel evaluation. -/
def is_artist_uri (artist : String) : Bool :=
  "spotify:artist:".data.isPrefixOf artist.data

/-- `ArtistRelativesApp._load_artist`.  In the URI branch the source unpacks
`artist_name, artist_id = ... get_artist(artist)` — the first variable
receives the response's id field and the second its name field — and then
returns `artist_id, artist_name`. -/
def load_artist (lookup : String → ArtistRecord)
    (queryByName : String → Bool → Option String)
    (artist : String) (ask : Bool) : Option (String × String) :=
  if is_artist_uri artist then
    let p := get_artist lookup artist
    let artist_name := p.1
    let artist_id := p.2
    some (artist_id, artist_name)
  else
    let artist_name := artist
    match queryByName artist ask with
    | some artist_id => some (artist_id, artist_name)
    | none => none

/-- A one-artist catalog: URI `spotify:artist:0OdUW`, id `0OdUW`,
display name `Muse`. -/
def demoLookup : String → ArtistRecord := fun _ => ⟨"0OdUW", "Muse"⟩

/-- C2: resolving the well-formed artist URI `spotify:artist:0OdUW`, whose
artist has id `0OdUW` and display name `Muse`, returns `("Muse", "0OdUW")` —
the display name in the first component and the id in the second, the
reverse of the specified `(ArtistId, displayName)` order: `_load_artist`
unpacks `get_artist`'s `(id, name)` pair into `(artist_name, artist_id)`. -/
theorem C2_load_artist_swaps_id_and_name :
    load_artist demoLookup (fun _ _ => none) "spotify:artist:0OdUW" false
      = some ("Muse", "0OdUW") := by
  decide

/-! ## Playlist assembly (`SpotifyWrapper.create_playlist`,
`SpotifyWrapper.playlist_add_tracks`)

```python
def create_playlist(self, name, username, track_ids=[], is_public=False):
    responses = []
    while track_ids:
        playlist_track_ids, track_ids = track_ids[:MAX_PLAYLIST_SIZE], track_ids[MAX_PLAYLIST_SIZE:]
        response = self._spotify_client.user_playlist_create(username, name, public=is_public)
        while playlist_track_ids:
            playlist_track_ids = self.playlist_add_tracks(username, response["id"], playlist_track_ids)
        responses.append(response)
    return responses

def playlist_add_tracks(self, username, id, track_ids):
    self._spotify_client.user_playlist_add_tracks(username, id, track_ids[:MAX_TRACKS_ADDED])
    return track_ids[MAX_TRACKS_ADDED:]
```

Both loops are the same shape: repeatedly split a nonempty list at a fixed
positive bound, emit the head slice, continue on the tail slice, stop on the
empty list.  `chunksOf` captures that shape.
-/

/-- Repeatedly split a list at `n` (`l[:n]` / `l[n:]`), collecting the head
slices, until the list is empty. -/
def chunksOf (n : Nat) (hn : 0 < n) : List α → List (List α)
  | [] => []
  | x :: xs => ((x :: xs).take n) :: chunksOf n hn ((x :: xs).drop n)
termination_by l => l.length
decreasing_by
  simp only [List.length_drop, List.length_cons]
  omega

theorem chunksOf_join (n : Nat) (hn : 0 < n) (l : List α) :
    (chunksOf n hn l).flatten = l := by
  induction l using chunksOf.induct n hn with
  | case1 => simp [chunksOf]
  | case2 x xs ih =>
    rw [chunksOf]
    simp only [List.flatten_cons, ih, List.take_append_drop]

theorem chunksOf_length (n : Nat) (hn : 0 < n) (l : List α) :
    (chunksOf n hn l).length = (l.length + n - 1) / n := by
  induction l using chunksOf.induct n hn with
  | case1 =>
    rw [chunksOf]
    simp only [List.length_nil, List.length_cons]
    have h1 : (0 + n - 1) / n = 0 := Nat.div_eq_of_lt (by omega)
    omega
  | case2 x xs ih =>
    rw [chunksOf]
    simp only [List.length_cons, ih, List.length_drop]
    rcases le_or_lt (xs.length + 1) n with hle | hlt
    · have h0 : xs.length + 1 - n = 0 := by omega
      rw [h0]
      have h1 : (0 + n - 1) / n = 0 := Nat.div_eq_of_lt (by omega)
      have h2 : (xs.length + 1 + n - 1) / n = 1 := by
        apply Nat.div_eq_of_lt_le <;> omega
      omega
    · have h3 : xs.length + 1 + n - 1 = (xs.length + 1 - n + n - 1) + n := by
        omega
      rw [h3, Nat.add_div_right _ hn]

theorem chunksOf_mem_length (n : Nat) (hn : 0 < n) (l : List α)
    (c : List α) (hc : c ∈ chunksOf n hn l) : c.length ≤ n := by
  induction l using chunksOf.induct n hn with
  | case1 => rw [chunksOf] at hc; cases hc
  | case2 x xs ih =>
    rw [chunksOf] at hc
    rcases List.mem_cons.1 hc with h | h
    · subst h
      exact List.length_take_le n (x :: xs)
    · exact ih h

/-- The natural-number expression `(a + b - 1) / b` is the ceiling of the
exact quotient `a / b`. -/
theorem ceil_div_eq_add_pred_div (a b : Nat) (hb : 0 < b) :
    ⌈(a : ℚ) / (b : ℚ)⌉₊ = (a + b - 1) / b := by
  have hbq : (0 : ℚ) < (b : ℚ) := by exact_mod_cast hb
  apply le_antisymm
  · rw [Nat.ceil_le, div_le_iff₀ hbq]
    have key : a ≤ ((a + b - 1) / b) * b := by
      have h1 : b * ((a + b - 1) / b) + (a + b - 1) % b = a + b - 1 :=
        Nat.div_add_mod _ _
      have h2 : (a + b - 1) % b < b := Nat.mod_lt _ hb
      rw [Nat.mul_comm] at h1
      omega
    exact_mod_cast key
  · rw [Nat.div_le_iff_le_mul_add_pred hb]
    have h3 : (a : ℚ) ≤ (⌈(a : ℚ) / (b : ℚ)⌉₊ : ℚ) * (b : ℚ) := by
      rw [← div_le_iff₀ hbq]
      exact Nat.le_ceil _
    have h4 : a ≤ ⌈(a : ℚ) / (b : ℚ)⌉₊ * b := by exact_mod_cast h3
    rw [Nat.mul_comm b _]
    omega

/-- The per-playlist chunks of `create_playlist`'s outer `while` loop
(`track_ids[:MAX_PLAYLIST_SIZE]` / `track_ids[MAX_PLAYLIST_SIZE:]`);
one `user_playlist_create` call is issued per chunk. -/
def playlistChunks (track_ids : List String) : List (List String) :=
  chunksOf MAX_PLAYLIST_SIZE (by decide) track_ids

/-- The payloads of the successive `user_playlist_add_tracks` calls issued
for one playlist chunk by the inner `while` loop: `playlist_add_tracks`
submits `track_ids[:MAX_TRACKS_ADDED]` and continues on
`track_ids[MAX_TRACKS_ADDED:]`. -/
def addTrackCalls (chunk : List String) : List (List String) :=
  chunksOf MAX_TRACKS_ADDED (by decide) chunk

/-- All `user_playlist_add_tracks` payloads issued by `create_playlist`, in
submission order (per chunk, in chunk order). -/
def allAddCalls (track_ids : List String) : List (List String) :=
  ((playlistChunks track_ids).map addTrackCalls).flatten

/-- `SpotifyWrapper.create_playlist`, observed through the playlists it
creates: one playlist per chunk, whose content is the concatenation of the
add-tracks payloads submitted to it.  Returns each created playlist's track
list, in creation order. -/
def create_playlist (track_ids : List String) : List (List String) :=
  (playlistChunks track_ids).map (fun chunk => (addTrackCalls chunk).flatten)

/-- C6: `create_playlist` on a track sequence of length `L` creates exactly
`⌈L / MAX_PLAYLIST_SIZE⌉` playlists (as a natural number,
`(L + MAX_PLAYLIST_SIZE - 1) / MAX_PLAYLIST_SIZE`), and concatenating the
created playlists' track lists in chunk order reproduces the original
sequence exactly. -/
theorem C6_playlist_partitioning (track_ids : List String) :
    (create_playlist track_ids).length
        = ⌈(track_ids.length : ℚ) / (MAX_PLAYLIST_SIZE : ℚ)⌉₊ ∧
    (create_playlist track_ids).flatten = track_ids := by
  constructor
  · rw [create_playlist, List.length_map, playlistChunks, chunksOf_length,
      ceil_div_eq_add_pred_div _ _ (by decide)]
  · rw [create_playlist]
    have h : (playlistChunks track_ids).map
        (fun chunk => (addTrackCalls chunk).flatten) = playlistChunks track_ids := by
      have h2 : ∀ chunk ∈ playlistChunks track_ids,
          (addTrackCalls chunk).flatten = id chunk :=
        fun chunk _ => chunksOf_join _ _ chunk
      rw [List.map_congr_left h2, List.map_id]
    rw [h, playlistChunks, chunksOf_join]

/-- C9: every `user_playlist_add_tracks` payload issued during playlist
assembly holds at most `MAX_TRACKS_ADDED` track ids, and within each
playlist chunk the sub-chunk payloads, concatenated in submission order,
are exactly the chunk — order preserved, nothing dropped. -/
theorem C9_add_calls_bounded_and_ordered (track_ids : List String) :
    (∀ call ∈ allAddCalls track_ids, call.length ≤ MAX_TRACKS_ADDED) ∧
    (∀ chunk ∈ playlistChunks track_ids, (addTrackCalls chunk).flatten = chunk) := by
  constructor
  · intro call hcall
    rw [allAddCalls, List.mem_flatten] at hcall
    obtain ⟨calls, hcalls, hmem⟩ := hcall
    rw [List.mem_map] at hcalls
    obtain ⟨chunk, _, rfl⟩ := hcalls
    exact chunksOf_mem_length _ _ chunk call hmem
  · intro chunk _
    exact chunksOf_join _ _ chunk

/-- Witness for `C9_add_calls_bounded_and_ordered` at a concrete input: the
single track list `["a"]` produces the single add-call payload `["a"]`. -/
theorem C9_add_calls_bounded_and_ordered_witness :
    (["a"] : List String).length ≤ MAX_TRACKS_ADDED ∧
    (addTrackCalls ["a"]).flatten = ["a"] := by
  have hp : playlistChunks ["a"] = [["a"]] := by
    rw [playlistChunks, chunksOf, List.take_of_length_le (by decide),
      List.drop_eq_nil_of_le (by decide), chunksOf]
  have ha : addTrackCalls ["a"] = [["a"]] := by
    rw [addTrackCalls, chunksOf, List.take_of_length_le (by decide),
      List.drop_eq_nil_of_le (by decide), chunksOf]
  have hall : allAddCalls ["a"] = [["a"]] := by
    rw [allAddCalls, hp, List.map_cons, List.map_nil, ha]
    rfl
  exact ⟨(C9_add_calls_bounded_and_ordered ["a"]).1 ["a"] (by rw [hall]; exact List.mem_singleton_self _),
    (C9_add_calls_bounded_and_ordered ["a"]).2 ["a"] (by rw [hp]; exact List.mem_singleton_self _)⟩

/-! ## The related-artist walker (`ArtistRelativesApp._walk_relatives`)

```python
def _walk_relatives(self, root_artist_id, include_root, halt_condition, excluded_artist_ids=set()):
    def _visit_relatives(artist_id):
        visited_artist_ids = OrderedSet([artist_id])
        artist_ids = OrderedSet([artist_id])
        depth = 0
        while not halt_condition(visited_artist_ids, depth):
            relative_ids = OrderedSet()
            for artist_id in artist_ids:
                relative_ids.update(self.spotify_client.related_artist_ids(artist_id))
            relative_ids -= visited_artist_ids
            relative_ids -= excluded_artist_ids
            visited_artist_ids.update(relative_ids)
            artist_ids = relative_ids
            depth += 1
        return visited_artist_ids

    relative_ids = _visit_relatives(root_artist_id)
    if not include_root:
        relative_ids -= OrderedSet((root_artist_id,))
    return relative_ids
```

The related-artist relation (`spotify_client.related_artist_ids`) is an
oracle `rel : String → List String`.  The walk state carries the `visited`
ordered set, the current frontier (`artist_ids`), and — as instrumentation —
the number of `related_artist_ids` fetch calls issued so far (one per
frontier member per executed level).  The `while` loop may never terminate
for an arbitrary halt condition, so the general embedding `walk_relatives`
takes a fuel bound and returns `none` if the loop has not halted within it;
for the depth-bounded halt condition `depth >= max_depth` the loop runs
exactly `max_depth` iterations, giving the total function
`walk_relatives_depth`, and `walk_relatives_depthHalt` proves the two agree.
-/

structure WalkState where
  visited : List String
  frontier : List String
  calls : Nat
deriving DecidableEq, Repr

/-- One iteration of the `while` loop of `_visit_relatives`. -/
def stepW (rel : String → List String) (excluded : List String)
    (s : WalkState) : WalkState :=
  let relative_ids := s.frontier.foldl (fun acc a => osUpdate acc (rel a)) []
  let relative_ids := osDiff relative_ids s.visited
  let relative_ids := osDiff relative_ids excluded
  ⟨osUpdate s.visited relative_ids, relative_ids, s.calls + s.frontier.length⟩

/-- The state on entry to the loop: `visited = frontier = {root}`, no fetch
calls issued yet. -/
def initWalk (root : String) : WalkState :=
  ⟨[root], [root], 0⟩

/-- The loop of `_visit_relatives` under a general halt condition, with a
fuel bound on the number of iterations. -/
def walkHaltAux (rel : String → List String) (excluded : List String)
    (halt : List String → Nat → Bool) :
    Nat → WalkState → Nat → Option WalkState
  | 0, _, _ => none
  | fuel + 1, s, depth =>
    if halt s.visited depth then some s
    else walkHaltAux rel excluded halt fuel (stepW rel excluded s) (depth + 1)

/-- `ArtistRelativesApp._walk_relatives`: run `_visit_relatives` from the
root, then drop the root unless `include_root`.  Returns the visited set in
insertion order together with the instrumented fetch-call count, or `none`
if the loop outruns the fuel. -/
def walk_relatives (rel : String → List String)
    (halt : List String → Nat → Bool) (excluded : List String)
    (root : String) (include_root : Bool) (fuel : Nat) :
    Option (List String × Nat) :=
  (walkHaltAux rel excluded halt fuel (initWalk root) 0).map
    (fun s => (if include_root then s.visited else osDiff s.visited [root], s.calls))

/-- `n` iterations of the loop body. -/
def stepIter (rel : String → List String) (excluded : List String) :
    Nat → WalkState → WalkState
  | 0, s => s
  | n + 1, s => stepW rel excluded (stepIter rel excluded n s)

/-- `_walk_relatives` under the main traversal's halt condition
`lambda visited_ids, depth: depth >= self.max_depth`, which stops the loop
after exactly `max_depth` iterations. -/
def walk_relatives_depth (rel : String → List String) (excluded : List String)
    (root : String) (include_root : Bool) (max_depth : Nat) :
    List String × Nat :=
  let s := stepIter rel excluded max_depth (initWalk root)
  (if include_root then s.visited else osDiff s.visited [root], s.calls)

theorem mem_osInsert (xs : List String) (y x : String) :
    x ∈ osInsert xs y ↔ x ∈ xs ∨ x = y := by
  unfold osInsert
  by_cases h : y ∈ xs
  · simp only [if_pos h]
    constructor
    · exact Or.inl
    · rintro (hx | rfl)
      · exact hx
      · exact h
  · simp [if_neg h]

theorem mem_osUpdate (xs ys : List String) (x : String) :
    x ∈ osUpdate xs ys ↔ x ∈ xs ∨ x ∈ ys := by
  induction ys generalizing xs with
  | nil => simp [osUpdate]
  | cons y ys ih =>
    show x ∈ osUpdate (osInsert xs y) ys ↔ _
    rw [ih, mem_osInsert]
    simp only [List.mem_cons]
    tauto

theorem mem_osDiff (xs ys : List String) (x : String) :
    x ∈ osDiff xs ys ↔ x ∈ xs ∧ x ∉ ys := by
  simp [osDiff]

theorem osInsert_isPre (xs : List String) (y : String) :
    xs <+: osInsert xs y := by
  unfold osInsert
  by_cases h : y ∈ xs
  · rw [if_pos h]
  · rw [if_neg h]
    exact ⟨[y], rfl⟩

theorem osUpdate_isPre (xs ys : List String) :
    xs <+: osUpdate xs ys := by
  induction ys generalizing xs with
  | nil => exact List.prefix_rfl
  | cons y ys ih =>
    exact (osInsert_isPre xs y).trans (ih (osInsert xs y))

theorem stepIter_succ_shift (rel : String → List String)
    (excluded : List String) (n : Nat) (s : WalkState) :
    stepIter rel excluded (n + 1) s = stepIter rel excluded n (stepW rel excluded s) := by
  induction n generalizing s with
  | zero => rfl
  | succ n ih =>
    show stepW rel excluded (stepIter rel excluded (n + 1) s) = _
    rw [ih]
    rfl

/-- Under the depth-bounded halt condition `depth >= max_depth`, the fueled
loop halts (with `max_depth + 1` fuel) and computes exactly
`walk_relatives_depth`: the faithful fueled embedding and the total
depth-indexed one agree. -/
theorem walk_relatives_depthHalt (rel : String → List String)
    (excluded : List String) (root : String) (include_root : Bool)
    (max_depth : Nat) :
    walk_relatives rel (fun _ depth => decide (max_depth ≤ depth)) excluded
        root include_root (max_depth + 1)
      = some (walk_relatives_depth rel excluded root include_root max_depth) := by
  have aux : ∀ remaining depth s, max_depth = depth + remaining →
      walkHaltAux rel excluded (fun _ depth => decide (max_depth ≤ depth))
          (remaining + 1) s depth
        = some (stepIter rel excluded remaining s) := by
    intro remaining
    induction remaining with
    | zero =>
      intro depth s hd
      unfold walkHaltAux
      rw [if_pos]
      · rfl
      · simp
        omega
    | succ r ih =>
      intro depth s hd
      show (if (decide (max_depth ≤ depth)) = true then _ else _) = _
      rw [if_neg (by simp; omega)]
      rw [ih (depth + 1) (stepW rel excluded s) (by omega)]
      rw [← stepIter_succ_shift]
  unfold walk_relatives walk_relatives_depth
  rw [aux max_depth 0 (initWalk root) (by omega)]
  rfl

/-- Any id in the visited set of a halted run was either already visited at
the start of the run or is not in the exclusion set: the loop only ever adds
ids that survived `relative_ids -= excluded_artist_ids`. -/
theorem walkHaltAux_visited_excluded (rel : String → List String)
    (excluded : List String) (halt : List String → Nat → Bool) :
    ∀ (fuel : Nat) (s : WalkState) (depth : Nat) (t : WalkState),
      walkHaltAux rel excluded halt fuel s depth = some t →
      ∀ x ∈ t.visited, x ∈ s.visited ∨ x ∉ excluded := by
  intro fuel
  induction fuel with
  | zero => intro s depth t h; cases h
  | succ fuel ih =>
    intro s depth t h x hx
    rw [walkHaltAux] at h
    split at h
    · cases h
      exact Or.inl hx
    · rcases ih (stepW rel excluded s) (depth + 1) t h x hx with hs | hex
      · simp only [stepW] at hs
        rcases (mem_osUpdate _ _ _).1 hs with h1 | h2
        · exact Or.inl h1
        · exact Or.inr ((mem_osDiff _ _ _).1 h2).2
      · exact Or.inr hex

/-- C5 (counterexample to the claim as stated): with root `"r"`, exclusion
set `{"r"}`, `include_root = true` and the depth-0 halt condition, the walk
returns visited set `["r"]` — the excluded id `"r"` appears in the result,
because the loop starts from `visited = {root}` and the exclusion set is
only ever subtracted from newly fetched relatives, never from the root. -/
theorem C5_excluded_root_in_visited :
    walk_relatives (fun _ => []) (fun _ depth => decide (0 ≤ depth))
        ["r"] "r" true 1 = some (["r"], 0) ∧
    "r" ∈ (["r"] : List String) := by
  exact ⟨rfl, by decide⟩

/-- C5 (amended): an id in the exclusion input set never appears in the
visited set returned by `_walk_relatives`, **unless** that id is the root
itself and `include_root` is set (the root is seeded into `visited` before
the exclusion set is ever consulted). -/
theorem C5_excluded_never_visited (rel : String → List String)
    (halt : List String → Nat → Bool) (excluded : List String)
    (root : String) (include_root : Bool) (fuel : Nat)
    (res : List String × Nat) (e : String)
    (hrun : walk_relatives rel halt excluded root include_root fuel = some res)
    (he : e ∈ excluded) (hroot : e ≠ root ∨ include_root = false) :
    e ∉ res.1 := by
  intro hmem
  unfold walk_relatives at hrun
  rcases h : walkHaltAux rel excluded halt fuel (initWalk root) 0 with _ | t
  · rw [h] at hrun; cases hrun
  · rw [h] at hrun
    cases hrun
    have hvis : e ∈ t.visited → e = root ∨ e ∉ excluded := by
      intro hv
      rcases walkHaltAux_visited_excluded rel excluded halt fuel
          (initWalk root) 0 t h e hv with hs | hex
      · left
        simpa [initWalk] using hs
      · exact Or.inr hex
    rcases hroot with hne | hir
    · cases include_root with
      | true =>
        simp only [if_pos] at hmem
        rcases hvis hmem with h1 | h2
        · exact hne h1
        · exact h2 he
      | false =>
        simp only [Bool.false_eq_true, if_neg] at hmem
        rcases (mem_osDiff _ _ _).1 hmem with ⟨h1, _⟩
        rcases hvis h1 with h3 | h4
        · exact hne h3
        · exact h4 he
    · subst hir
      simp only [Bool.false_eq_true, if_neg] at hmem
      rcases (mem_osDiff _ _ _).1 hmem with ⟨h1, h2⟩
      rcases hvis h1 with h3 | h4
      · exact h2 (by simp [h3])
      · exact h4 he

/-- Witness for `C5_excluded_never_visited` at a concrete input: root `"r"`,
exclusion set `{"x"}`, one-level walk over a relation with no relatives. -/
theorem C5_excluded_never_visited_witness :
    walk_relatives (fun _ => []) (fun _ depth => decide (1 ≤ depth))
        ["x"] "r" true 2 = some (["r"], 1) ∧
    "x" ∉ ((["r"], 1) : List String × Nat).1 :=
  ⟨by decide, C5_excluded_never_visited (fun _ => [])
    (fun _ depth => decide (1 ≤ depth)) ["x"] "r" true 2 (["r"], 1) "x"
    (by decide) (by decide) (Or.inl (by decide))⟩

theorem stepIter_visited_isPre (rel : String → List String)
    (excluded : List String) (n : Nat) (s : WalkState) :
    (stepIter rel excluded n s).visited <+: (stepIter rel excluded (n + 1) s).visited := by
  show (stepIter rel excluded n s).visited <+: (stepW rel excluded (stepIter rel excluded n s)).visited
  exact osUpdate_isPre _ _

theorem stepIter_visited_mono (rel : String → List String)
    (excluded : List String) (s : WalkState) (d d' : Nat) (h : d ≤ d') :
    (stepIter rel excluded d s).visited <+: (stepIter rel excluded d' s).visited := by
  induction d' with
  | zero =>
    have : d = 0 := Nat.le_zero.1 h
    subst this
    exact List.prefix_rfl
  | succ d' ih =>
    rcases Nat.lt_or_ge d (d' + 1) with hlt | hge
    · exact (ih (Nat.lt_succ_iff.1 hlt)).trans (stepIter_visited_isPre rel excluded d' s)
    · have : d = d' + 1 := Nat.le_antisymm h hge
      subst this
      exact List.prefix_rfl

/-- C7: for a fixed relation, root, exclusion set and `include_root`, the
size of the visited set produced by the depth-bounded traversal is
monotonically non-decreasing in `max_depth`. -/
theorem C7_visited_size_monotone (rel : String → List String)
    (excluded : List String) (root : String) (include_root : Bool)
    (d d' : Nat) (h : d ≤ d') :
    (walk_relatives_depth rel excluded root include_root d).1.length
      ≤ (walk_relatives_depth rel excluded root include_root d').1.length := by
  have hpre := stepIter_visited_mono rel excluded (initWalk root) d d' h
  unfold walk_relatives_depth
  cases include_root with
  | true => simpa using hpre.length_le
  | false =>
    simp only [Bool.false_eq_true, if_neg]
    exact (hpre.filter _).length_le

/-- Witness for `C7_visited_size_monotone` at a concrete input. -/
theorem C7_visited_size_monotone_witness :
    (walk_relatives_depth (fun _ => ["a"]) [] "r" true 0).1.length
      ≤ (walk_relatives_depth (fun _ => ["a"]) [] "r" true 1).1.length :=
  C7_visited_size_monotone (fun _ => ["a"]) [] "r" true 0 1 (by decide)

/-- C8: the depth-bounded traversal with `max_depth = 0` returns exactly
`[root]` when `include_root` is set and `[]` otherwise, and issues no
related-artist fetch calls: the loop's halt condition `depth >= 0` holds
immediately, so the loop body never runs. -/
theorem C8_depth_zero (rel : String → List String) (excluded : List String)
    (root : String) :
    walk_relatives_depth rel excluded root true 0 = ([root], 0) ∧
    walk_relatives_depth rel excluded root false 0 = ([], 0) := by
  constructor
  · rfl
  · simp [walk_relatives_depth, stepIter, initWalk, osDiff]


/-! ## Naming and renaming the created playlists
(`ArtistRelativesApp._create_playlist`)

```python
def _create_playlist(self, artist_name, track_ids, playlist_name_format):
    playlist_base_name = playlist_name_format.replace("<artist>", artist_name)
    responses = self.spotify_client.create_playlist(playlist_base_name, self.current_user["username"], track_ids)

    if len(responses) > 1:
        for index, response in enumerate(responses):
            playlist_name = "{0} (part {1})".format(playlist_base_name, index + 1)
            self.spotify_client.playlist_edit(response["id"], username, name=playlist_name)
    return [response["external_urls"]["spotify"] for response in responses]
```

The playlists' URLs (`response["external_urls"]["spotify"]`) are modelled by
an oracle `mkUrl` from the creation index to the URL.
-/

inductive PyError where
  | nameError (name : String) : PyError
deriving DecidableEq, Repr

/-- The second positional argument of the `playlist_edit` call in the rename
loop is the bare name `username`.  No binding for `username` exists in
`_create_playlist`, in the class, or at module level (every other call site
uses `self.current_user["username"]`), so evaluating the argument raises
`NameError`. -/
def usernameArg : Except PyError String :=
  .error (.nameError "username")

/-- The 1-based part suffix: `"{0} (part {1})".format(playlist_base_name, index + 1)`. -/
def part_name (playlist_base_name : String) (index : Nat) : String :=
  playlist_base_name ++ " (part " ++ toString (index + 1) ++ ")"

/-- The rename loop of `_create_playlist`: for each `(index, response)`,
compute the part name and call `playlist_edit`, whose argument list
evaluates the unbound `username`. -/
def renameLoop (playlist_base_name : String) (responses : List (List String)) :
    Except PyError Unit :=
  responses.enum.foldlM
    (fun _ x =>
      let _playlist_name := part_name playlist_base_name x.1
      match usernameArg with
      | .error e => .error e
      | .ok _ => .ok ())
    ()

/-- `ArtistRelativesApp._create_playlist`. -/
def app_create_playlist (mkUrl : Nat → String) (artist_name : String)
    (track_ids : List String) (playlist_name_format : String) :
    Except PyError (List String) := do
  let playlist_base_name := playlist_name_format.replace "<artist>" artist_name
  let responses := create_playlist track_ids
  if responses.length > 1 then
    renameLoop playlist_base_name responses
  return (List.range responses.length).map mkUrl

theorem renameLoop_error (playlist_base_name : String)
    (r : List String) (rs : List (List String)) :
    renameLoop playlist_base_name (r :: rs) = .error (.nameError "username") := rfl

theorem app_create_playlist_error (mkUrl : Nat → String)
    (artist_name playlist_name_format : String) (track_ids : List String)
    (h : 1 < (create_playlist track_ids).length) :
    app_create_playlist mkUrl artist_name track_ids playlist_name_format
      = .error (.nameError "username") := by
  unfold app_create_playlist
  rcases hr : create_playlist track_ids with _ | ⟨r, rs⟩
  · rw [hr] at h
    simp at h
  · rw [hr] at h
    simp only [hr]
    rw [if_pos (by simpa using h)]
    rw [renameLoop_error]
    rfl

/-- C3: on a track sequence one longer than `MAX_PLAYLIST_SIZE` — so two
playlist chunks, `N = 2 > 1` — `_create_playlist` does not complete the
renames: the very first `playlist_edit` call evaluates the unbound variable
`username` and raises `NameError`.  (The intended suffixes themselves are
1-based `part N` markers with chunk 1 named `part 1`: see `part_name`, with
`part_name base 0 = base ++ " (part 1)"`.) -/
theorem C3_rename_raises_nameError (mkUrl : Nat → String)
    (artist_name playlist_name_format : String) :
    app_create_playlist mkUrl artist_name
        (List.replicate (MAX_PLAYLIST_SIZE + 1) "t") playlist_name_format
      = .error (.nameError "username") ∧
    part_name "X" 0 = "X (part 1)" := by
  constructor
  · apply app_create_playlist_error
    rw [create_playlist, List.length_map, playlistChunks, chunksOf_length,
      List.length_replicate]
    decide
  · decide


/-! ## The exclusion-set computation
(`ArtistRelativesApp.create_relatives_playlist`, head of the function)

```python
def create_relatives_playlist(self, artist, excluded_artists=[], exclude_from_parent=None):
    artist_id, artist_name = self._load_artist(artist, self.ask)

    excluded_artist_ids = {self._load_artist(artist)[0] for artist in excluded_artists}
    if exclude_from_parent:
        parent_id, parent_name = self._load_artist(exclude_from_parent, self.ask)
        excluded_artist_ids = self._walk_relatives(parent_id, True,
                lambda visited_ids, depth: artist_id in visited_ids)

    relative_ids = self._walk_relatives(artist_id, self.include_root,
            lambda visited_ids, depth: depth >= self.max_depth, excluded_artist_ids)
    ...
```

`excluded_input` computes `excluded_artist_ids` as handed to the main
traversal.  The comprehension result is a Python set (order-insensitive;
modelled as the insertion-ordered dedup of the loaded ids); `none` models an
uncaught exception — a failed artist load, or the parent walk outrunning its
fuel.  Note the parent branch rebinds `excluded_artist_ids` by plain
assignment: the comprehension result is discarded, not united with the walk
result.
-/

/-- The exclusion set handed to the main traversal of
`create_relatives_playlist`. -/
def excluded_input (lookup : String → ArtistRecord)
    (queryByName : String → Bool → Option String)
    (rel : String → List String) (ask : Bool) (fuel : Nat)
    (artist : String) (excluded_artists : List String)
    (exclude_from_parent : Option String) : Option (List String) := do
  let (artist_id, _artist_name) ← load_artist lookup queryByName artist ask
  let loaded ← excluded_artists.mapM
      (fun a => (load_artist lookup queryByName a false).map (fun p => p.1))
  let excluded_artist_ids := osUpdate [] loaded
  match exclude_from_parent with
  | none => some excluded_artist_ids
  | some parentRef => do
      let (parent_id, _parent_name) ← load_artist lookup queryByName parentRef ask
      let walked ← walk_relatives rel
          (fun visited_ids _ => decide (artist_id ∈ visited_ids))
          [] parent_id true fuel
      some walked.1

/-- C10: when an exclude-from-parent artist is supplied, the exclusion set
computed by the parent walk replaces the set derived from the individually
listed excluded artists: provided the listed artists load successfully (else
the run aborts before the branch), the exclusion input is the same as if no
artists had been individually listed, so the listed artists are not excluded
unless the parent walk happens to visit them. -/
theorem C10_parent_walk_replaces_exclusions (lookup : String → ArtistRecord)
    (queryByName : String → Bool → Option String)
    (rel : String → List String) (ask : Bool) (fuel : Nat)
    (artist : String) (excluded_artists : List String) (parentRef : String)
    (ids : List String)
    (hloads : excluded_artists.mapM
        (fun a => (load_artist lookup queryByName a false).map (fun p => p.1))
      = some ids) :
    excluded_input lookup queryByName rel ask fuel artist excluded_artists
        (some parentRef)
      = excluded_input lookup queryByName rel ask fuel artist []
        (some parentRef) := by
  unfold excluded_input
  rcases hload : load_artist lookup queryByName artist ask with _ | p
  · rfl
  · rw [hloads]
    rfl

/-- Witness for `C10_parent_walk_replaces_exclusions` at a concrete input:
a one-artist catalog, URI references throughout, one listed excluded
artist. -/
theorem C10_parent_walk_replaces_exclusions_witness :
    (["spotify:artist:b"].mapM
        (fun a => (load_artist demoLookup (fun _ _ => none) a false).map
          (fun p => p.1))
      = some ["Muse"]) ∧
    excluded_input demoLookup (fun _ _ => none) (fun _ => []) false 1
        "spotify:artist:a" ["spotify:artist:b"] (some "spotify:artist:p")
      = excluded_input demoLookup (fun _ _ => none) (fun _ => []) false 1
        "spotify:artist:a" [] (some "spotify:artist:p") :=
  ⟨by decide,
    C10_parent_walk_replaces_exclusions demoLookup (fun _ _ => none)
      (fun _ => []) false 1 "spotify:artist:a" ["spotify:artist:b"]
      "spotify:artist:p" ["Muse"] (by decide)⟩


end RelativeArtistry
